import Mathlib

/-!
Shallow embedding of `src/fields/Field.js` (the `Field` class of the
Airtable-ORM repository) and proofs about its specification claims.

JavaScript values are modelled by the inductive type `JSValue`:
numbers are modelled as integers-or-NaN (no claim depends on non-integral
or IEEE-754-specific behaviour), and composite values (arrays, objects)
carry a reference identifier `id` modelling JavaScript object identity
(two live objects are the same reference iff they have the same `id`;
built-ins that allocate fresh objects produce identifiers distinct from
the identifiers of their inputs where that is observable) together with a
`frozen` flag modelling `Object.isFrozen` / `Object.freeze`.
-/

namespace Airtable

inductive JSNum where
  | nan
  | int (n : Int)
deriving DecidableEq, Repr

inductive JSValue where
  | undef
  | null
  | bool (b : Bool)
  | num (n : JSNum)
  | str (s : String)
  | arr (id : Nat) (frozen : Bool) (elems : List JSValue)
  | obj (id : Nat) (frozen : Bool) (entries : List (String × JSValue))
deriving Repr

namespace JSValue

mutual

/-- Structural (Lean-level) equality test on `JSValue`, used to derive
`DecidableEq` (the nested inductive prevents automatic derivation). -/
def beqVal : JSValue → JSValue → Bool
  | .undef, .undef => true
  | .null, .null => true
  | .bool a, .bool b => a == b
  | .num a, .num b => a == b
  | .str a, .str b => a == b
  | .arr i₁ f₁ l₁, .arr i₂ f₂ l₂ => i₁ == i₂ && f₁ == f₂ && beqList l₁ l₂
  | .obj i₁ f₁ e₁, .obj i₂ f₂ e₂ => i₁ == i₂ && f₁ == f₂ && beqEntries e₁ e₂
  | _, _ => false

def beqList : List JSValue → List JSValue → Bool
  | [], [] => true
  | a :: as, b :: bs => beqVal a b && beqList as bs
  | _, _ => false

def beqEntries : List (String × JSValue) → List (String × JSValue) → Bool
  | [], [] => true
  | (k₁, v₁) :: as, (k₂, v₂) :: bs => k₁ == k₂ && beqVal v₁ v₂ && beqEntries as bs
  | _, _ => false

end

mutual

theorem beqVal_iff : ∀ a b : JSValue, beqVal a b = true ↔ a = b
  | .undef, .undef => by simp [beqVal]
  | .null, .null => by simp [beqVal]
  | .bool a, .bool b => by simp [beqVal]
  | .num a, .num b => by simp [beqVal]
  | .str a, .str b => by simp [beqVal]
  | .arr i₁ f₁ l₁, .arr i₂ f₂ l₂ => by
      simp [beqVal, beqList_iff l₁ l₂, and_assoc]
  | .obj i₁ f₁ e₁, .obj i₂ f₂ e₂ => by
      simp [beqVal, beqEntries_iff e₁ e₂, and_assoc]
  | .undef, .null | .undef, .bool _ | .undef, .num _ | .undef, .str _
  | .undef, .arr _ _ _ | .undef, .obj _ _ _
  | .null, .undef | .null, .bool _ | .null, .num _ | .null, .str _
  | .null, .arr _ _ _ | .null, .obj _ _ _
  | .bool _, .undef | .bool _, .null | .bool _, .num _ | .bool _, .str _
  | .bool _, .arr _ _ _ | .bool _, .obj _ _ _
  | .num _, .undef | .num _, .null | .num _, .bool _ | .num _, .str _
  | .num _, .arr _ _ _ | .num _, .obj _ _ _
  | .str _, .undef | .str _, .null | .str _, .bool _ | .str _, .num _
  | .str _, .arr _ _ _ | .str _, .obj _ _ _
  | .arr _ _ _, .undef | .arr _ _ _, .null | .arr _ _ _, .bool _
  | .arr _ _ _, .num _ | .arr _ _ _, .str _ | .arr _ _ _, .obj _ _ _
  | .obj _ _ _, .undef | .obj _ _ _, .null | .obj _ _ _, .bool _
  | .obj _ _ _, .num _ | .obj _ _ _, .str _ | .obj _ _ _, .arr _ _ _ => by
      simp [beqVal]

theorem beqList_iff : ∀ a b : List JSValue, beqList a b = true ↔ a = b
  | [], [] => by simp [beqList]
  | a :: as, b :: bs => by
      simp [beqList, beqVal_iff a b, beqList_iff as bs]
  | [], _ :: _ | _ :: _, [] => by simp [beqList]

theorem beqEntries_iff :
    ∀ a b : List (String × JSValue), beqEntries a b = true ↔ a = b
  | [], [] => by simp [beqEntries]
  | (k₁, v₁) :: as, (k₂, v₂) :: bs => by
      simp [beqEntries, beqVal_iff v₁ v₂, beqEntries_iff as bs, and_assoc]
  | [], _ :: _ | _ :: _, [] => by simp [beqEntries]

end

instance : DecidableEq JSValue := fun a b =>
  decidable_of_iff (beqVal a b = true) (beqVal_iff a b)

instance : DecidableEq (Except String JSValue) := fun a b =>
  match a, b with
  | .ok x, .ok y => decidable_of_iff (x = y) (by simp)
  | .error x, .error y => decidable_of_iff (x = y) (by simp)
  | .ok _, .error _ => isFalse (by simp)
  | .error _, .ok _ => isFalse (by simp)

/-- JavaScript `typeof`. -/
def jsTypeof : JSValue → String
  | .undef => "undefined"
  | .null => "object"
  | .bool _ => "boolean"
  | .num _ => "number"
  | .str _ => "string"
  | .arr _ _ _ => "object"
  | .obj _ _ _ => "object"

/-- `Array.isArray`. -/
def jsIsArray : JSValue → Bool
  | .arr _ _ _ => true
  | _ => false

/-- JavaScript `ToBoolean` (truthiness). -/
def jsTruthy : JSValue → Bool
  | .undef => false
  | .null => false
  | .bool b => b
  | .num .nan => false
  | .num (.int n) => n ≠ 0
  | .str s => s ≠ ""
  | .arr _ _ _ => true
  | .obj _ _ _ => true

/-- Rendering of a `JSNum` (decimal notation; `NaN` renders as in JS). -/
def jsNumToString : JSNum → String
  | .nan => "NaN"
  | .int n => toString n

mutual

/-- JavaScript `String(v)` / template-literal interpolation (`ToString`).
Arrays join their elements with commas, rendering `undefined`/`null`
elements as the empty string; plain objects render as
`[object Object]`. -/
def jsToString : JSValue → String
  | .undef => "undefined"
  | .null => "null"
  | .bool b => if b then "true" else "false"
  | .num n => jsNumToString n
  | .str s => s
  | .arr _ _ elems => String.intercalate "," (jsToStringElems elems)
  | .obj _ _ _ => "[object Object]"

def jsToStringElems : List JSValue → List String
  | [] => []
  | .undef :: rest => "" :: jsToStringElems rest
  | .null :: rest => "" :: jsToStringElems rest
  | v :: rest => jsToString v :: jsToStringElems rest

end

/-- JSON string-literal quoting of a string (escapes backslash and the
double quote; the claims exercise no control characters). -/
def jsonQuote (s : String) : String :=
  "\"" ++ String.join (s.toList.map (fun c =>
    if c = Char.ofNat 34 ∨ c = Char.ofNat 92
    then String.singleton (Char.ofNat 92) ++ String.singleton c
    else String.singleton c)) ++ "\""

mutual

/-- JavaScript `JSON.stringify` (compact form). `JSON.stringify(undefined)`
is `undefined`, modelled as `none`; `NaN` serializes as `null`; object
entries whose value serializes to `undefined` are skipped. -/
def jsonStringify : JSValue → Option String
  | .undef => none
  | .null => some "null"
  | .bool b => some (if b then "true" else "false")
  | .num .nan => some "null"
  | .num (.int n) => some (toString n)
  | .str s => some (jsonQuote s)
  | .arr _ _ elems =>
      some ("[" ++ String.intercalate "," (jsonStringifyElems elems) ++ "]")
  | .obj _ _ entries =>
      some ("\x7b" ++ String.intercalate "," (jsonStringifyEntries entries) ++ "\x7d")

/-- Array elements that serialize to `undefined` serialize as `null`. -/
def jsonStringifyElems : List JSValue → List String
  | [] => []
  | v :: rest => (jsonStringify v).getD "null" :: jsonStringifyElems rest

def jsonStringifyEntries : List (String × JSValue) → List String
  | [] => []
  | (k, v) :: rest =>
      match jsonStringify v with
      | none => jsonStringifyEntries rest
      | some s => (jsonQuote k ++ ":" ++ s) :: jsonStringifyEntries rest

end

/-- Property read `v[k]` for the property names the `Field` code reads.
On objects: the entry value, or `undefined` when absent. Property reads
on primitives and arrays (which the modelled flows do not rely on)
return `undefined`. -/
def jsGet : JSValue → String → JSValue
  | .obj _ _ entries, k =>
      match entries.find? (fun e => e.1 = k) with
      | some e => e.2
      | none => .undef
  | _, _ => undef

/-- Property write `o[k] = v` on an object's entry list: an existing key
is updated in place (keeping its position), a new key is appended. -/
def setEntry (entries : List (String × JSValue)) (k : String) (v : JSValue) :
    List (String × JSValue) :=
  match entries with
  | [] => [(k, v)]
  | (k', v') :: rest =>
      if k' = k then (k', v) :: rest else (k', v') :: setEntry rest k v

/-- JavaScript strict equality `===`. Primitives compare by value
(`NaN === x` is always false); arrays and objects compare by reference
identity, modelled by their `id`. -/
def jsStrictEq : JSValue → JSValue → Bool
  | .undef, .undef => true
  | .null, .null => true
  | .bool a, .bool b => a == b
  | .num .nan, _ => false
  | _, .num .nan => false
  | .num (.int a), .num (.int b) => a == b
  | .str a, .str b => a == b
  | .arr i₁ _ _, .arr i₂ _ _ => i₁ == i₂
  | .obj i₁ _ _, .obj i₂ _ _ => i₁ == i₂
  | _, _ => false

/-- JavaScript `Number(v)` (`ToNumber`), under the integer number model:
booleans map to 0/1, `null` to 0, `undefined` to `NaN`, strings parse as
an optionally-signed decimal integer (the empty/whitespace string is 0,
anything unparsable is `NaN`), arrays and objects convert through their
string conversion (plain objects therefore give `NaN`). -/
def jsStringToNumber (s : String) : JSNum :=
  let t := s.trim
  if t = "" then .int 0
  else match t.toInt? with
    | some n => .int n
    | none => .nan

def jsNumberOf : JSValue → JSNum
  | .undef => .nan
  | .null => .int 0
  | .bool b => .int (if b then 1 else 0)
  | .num n => n
  | .str s => jsStringToNumber s
  | v => jsStringToNumber (jsToString v)

/-- `typeof v === 'number' && isNaN(v)`. -/
def jsIsNaN : JSValue → Bool
  | .num .nan => true
  | _ => false

/-- A classification of values refining `typeof` by separating arrays
from other objects (the spec's notion of "runtime type": textual /
boolean / numeric / sequence / mapping). -/
def jsKind : JSValue → String
  | .undef => "undefined"
  | .null => "null"
  | .bool _ => "boolean"
  | .num _ => "number"
  | .str _ => "string"
  | .arr _ _ _ => "array"
  | .obj _ _ _ => "object"

/-- The JavaScript falsy values (`ToBoolean` gives `false`), enumerated
independently of `jsTruthy` for stating claims about falsiness. -/
def jsFalsy (v : JSValue) : Prop :=
  v = .undef ∨ v = .null ∨ v = .bool false ∨ v = .num (.int 0) ∨
    v = .num .nan ∨ v = .str ""

instance (v : JSValue) : Decidable (jsFalsy v) := by
  unfold jsFalsy; infer_instance

/-- `Object.isFrozen`: true for every primitive, the `frozen` flag for
arrays and objects. -/
def jsIsFrozen : JSValue → Bool
  | .arr _ f _ => f
  | .obj _ f _ => f
  | _ => true

/-- `Object.freeze` (shallow: marks only the top value frozen). -/
def jsFreeze : JSValue → JSValue
  | .arr i _ l => .arr i true l
  | .obj i _ e => .obj i true e
  | v => v

mutual

/-- The largest reference id occurring in a value (0 when none); used to
produce fresh ids for modelled built-ins that allocate. -/
def maxId : JSValue → Nat
  | .arr i _ l => max i (maxIdList l)
  | .obj i _ e => max i (maxIdEntries e)
  | _ => 0

def maxIdList : List JSValue → Nat
  | [] => 0
  | v :: rest => max (maxId v) (maxIdList rest)

def maxIdEntries : List (String × JSValue) → Nat
  | [] => 0
  | (_, v) :: rest => max (maxId v) (maxIdEntries rest)

end

/-- The key the default `Array.prototype.sort()` comparator orders by:
the string conversion of the element. -/
def jsSortKey (v : JSValue) : String := jsToString v

/-- Lexicographic strict comparison of character lists (executable model
of the code-unit comparison JavaScript's `<` performs on strings). -/
def charsLt : List Char → List Char → Bool
  | [], [] => false
  | [], _ :: _ => true
  | _ :: _, [] => false
  | a :: as, b :: bs =>
      if a < b then true
      else if b < a then false
      else charsLt as bs

/-- JavaScript string comparison `a < b`. -/
def jsStrLt (a b : String) : Bool := charsLt a.data b.data

/-- Stable insertion of `x` into a list sorted by `jsSortKey`: `x` goes
before the first element of strictly greater key, and after elements of
equal key that preceded it. -/
def insertSorted (x : JSValue) : List JSValue → List JSValue
  | [] => [x]
  | y :: ys =>
      if jsStrLt (jsSortKey y) (jsSortKey x) then y :: insertSorted x ys
      else x :: y :: ys

/-- Model of `Array.prototype.sort()` with the default comparator: a
stable sort by the elements' string conversions (ECMAScript mandates a
stable sort ordering elements by their `ToString` images; any stable
sort by that key yields the same list). -/
def jsSortDefault (l : List JSValue) : List JSValue :=
  l.foldr insertSorted []

end JSValue

open JSValue

/-- The state of a `Field` instance: its own (underscore-prefixed)
properties. A property a constructed JS object does not have reads as
`undefined`, so every slot is a `JSValue` defaulting to `undef`. -/
structure Field where
  _name : JSValue := .undef
  _config : JSValue := .undef
  _type : JSValue := .undef
  _value : JSValue := .undef
  _originalValue_ : JSValue := .undef
deriving Repr, DecidableEq

namespace Field

/-- Getter `get name()`. -/
def nameGet (f : Field) : JSValue := f._name

/-- Getter `get config()`: `this._config || {}` (the fallback allocates
a fresh empty object; its identity is irrelevant to every modelled flow,
so it carries id 0). -/
def configGet (f : Field) : JSValue :=
  if jsTruthy f._config then f._config else .obj 0 false []

/-- Getter `get type()`. -/
def typeGet (f : Field) : JSValue := f._type

/-- Getter `get record()`: `this.config.__record__`. -/
def recordGet (f : Field) : JSValue := jsGet f.configGet "__record__"

/-- Getter `get value()`:
`this._value === 0 || this._value === false ? this._value : this._value || null`. -/
def valueGet (f : Field) : JSValue :=
  if f._value = .num (.int 0) ∨ f._value = .bool false then f._value
  else if jsTruthy f._value then f._value else .null

/-- Setter `set value(value)`: plain assignment to `this._value`. -/
def setValue (f : Field) (value : JSValue) : Field :=
  { f with _value := value }

/-- Getter `get _originalValue()`. -/
def originalValueGet (f : Field) : JSValue := f._originalValue_

/-- `isPrimary()`: `this.config.primary === true`. -/
def isPrimary (f : Field) : Bool :=
  jsStrictEq (jsGet f.configGet "primary") (.bool true)

/-- The outcome of a call to `Field.prototype._error`: the error is
thrown to the caller, or logged and the process exits with a status
code, or merely logged. -/
inductive ErrorOutcome where
  | thrown (name msg : String)
  | loggedExit (msg : String) (code : Nat)
  | logged (msg : String)
deriving Repr, DecidableEq

def ErrorOutcome.isThrown : ErrorOutcome → Bool
  | .thrown _ _ => true
  | _ => false

def ErrorOutcome.isExit : ErrorOutcome → Bool
  | .loggedExit _ _ => true
  | _ => false

def ErrorOutcome.isLoggedOnly : ErrorOutcome → Bool
  | .logged _ => true
  | _ => false

/-- The `=====FIELD INFO=====` diagnostic block `_error` and `_warn`
assemble (`received.constructor.name`; absent for `undefined`, `null`
and `NaN`). -/
def jsClassName : JSValue → Option String
  | .undef => none
  | .null => none
  | .num .nan => none
  | .num _ => some "Number"
  | .str _ => some "String"
  | .bool _ => some "Boolean"
  | .arr _ _ _ => some "Array"
  | .obj _ _ _ => some "Object"

/-- The structured context block of `_error` (lines 181–193 of
`Field.js`). `Record`/`Field` host instances do not occur among modelled
values, so `rPrint` is always the `JSON.stringify(received, null, 2)`
arm, modelled compactly (the two-space indentation whitespace is not
reproduced; no claim inspects it). -/
def errorMessage (f : Field) (message : String) (received : JSValue) : String :=
  let base := if jsTruthy f.recordGet then
      (if jsTruthy (jsGet f.recordGet "table")
       then jsGet (jsGet f.recordGet "table") "base" else .undef)
    else .undef
  let table := if jsTruthy f.recordGet then
      (if jsTruthy (jsGet f.recordGet "table")
       then jsGet (jsGet f.recordGet "table") "name" else .undef)
    else .undef
  let record := if jsTruthy f.recordGet then jsGet f.recordGet "id" else .undef
  let rPrint := (jsonStringify received).getD "undefined"
  message ++
  "\n=====FIELD INFO=====" ++
  "\nBase: " ++ jsToString base ++
  "\nTable: " ++ jsToString table ++
  "\nRecord: " ++ jsToString record ++
  "\nField: " ++ jsToString f.nameGet ++
  "\nStrict: " ++ (if jsGet f.configGet "strict" = .bool true then "true" else "false") ++
  "\nReceived: " ++ rPrint ++
  "\nType: " ++ (if jsIsArray received then "array" else jsTypeof received) ++
  (match jsClassName received with
   | some c => "\nClass: " ++ c
   | none => "") ++
  "\n=====FIELD INFO====="

/-- `_error(message, received, forceThrow = false)` (lines 166–208).
The error's name is `` `${type}Error` `` where `type` is
`'UninitializedField'` when `this.type` is unset, else
`this.constructor.name` (`"Field"` for the base class modelled here).
It is thrown when the type is set and (`forceThrow` or no suppression);
otherwise it is logged, and when the type is still unset the process
exits with status 2. -/
def errorRun (f : Field) (message : String) (received : JSValue)
    (forceThrow : Bool) : ErrorOutcome :=
  let typeName := if f.typeGet = .undef then "UninitializedField" else "Field"
  let msg := f.errorMessage message received
  if f.typeGet ≠ .undef ∧
      (forceThrow = true ∨ jsGet f.configGet "__ignoreFieldErrors__" ≠ .bool true)
  then .thrown (typeName ++ "Error") msg
  else if f.typeGet = .undef then .loggedExit msg 2
  else .logged msg

/-- Setter `set config(config)` (lines 88–94): rejects a second write
and non-object / array input via `_error`, else stores the object (by
reference). The pair is (state after the call, error outcome if any). -/
def setConfig (f : Field) (config : JSValue) : Field × Option ErrorOutcome :=
  if f._config ≠ .undef then
    (f, some (f.errorRun "config can not be changed!" .undef false))
  else if jsTypeof config ≠ "object" ∨ jsIsArray config then
    (f, some (f.errorRun "config should be key-value Object." config false))
  else ({ f with _config := config }, none)

/-- Setter `set type(type)` (lines 105–109): rejects a second write via
`_error`, else stores the value. -/
def setType (f : Field) (type : JSValue) : Field × Option ErrorOutcome :=
  if f.typeGet ≠ .undef then
    (f, some (f.errorRun "type can not be changed!" type false))
  else ({ f with _type := type }, none)

/-- `_checkName(name)` merged with setter `set name(name)`
(lines 96–99, 115–119): a non-string or empty name routes through
`_error` and leaves `_name` unset; otherwise the name is stored. -/
def setName (f : Field) (name : JSValue) : Field × Option ErrorOutcome :=
  match name with
  | .str s =>
      if s.length < 1 then
        (f, some (f.errorRun
          "name must be a string with a minimum length of 1 character." name false))
      else ({ f with _name := .str s }, none)
  | v =>
      (f, some (f.errorRun
        "name must be a string with a minimum length of 1 character." v false))

/-- `[].concat(value)`: a fresh array; a one-element wrap for a
non-array value, a shallow copy for an array. -/
def jsConcatWrap (freshId : Nat) : JSValue → JSValue
  | .arr _ _ l => .arr freshId false l
  | v => .arr freshId false [v]

/-- A reference id not occurring in the field's stored values, used for
the fresh array `[].concat` allocates inside `_saveValue`. -/
def freshId (f : Field) : Nat :=
  maxId f._originalValue_ + maxId f._value + 1

/-- Getter `get _saveValue()` (lines 30–54), the save-value coercion. -/
def saveValue (f : Field) : JSValue :=
  if jsGet f.configGet "strict" = .bool true then f.valueGet
  else if f.valueGet = .undef ∨ f.valueGet = .null then .null
  else if f._originalValue_ = .undef ∨ jsTypeof f.valueGet = jsTypeof f._originalValue_ then
    f.valueGet
  else if f._originalValue_ ≠ .undef ∧
      (f.valueGet = .undef ∨ f.valueGet = .null ∨ jsIsNaN f.valueGet) then
    .null
  else if jsTypeof f._originalValue_ = "string" then .str (jsToString f.valueGet)
  else if jsTypeof f._originalValue_ = "boolean" then .bool (jsTruthy f.valueGet)
  else if jsTypeof f._originalValue_ = "number" then .num (jsNumberOf f.valueGet)
  else if jsIsArray f._originalValue_ then jsConcatWrap f.freshId f.valueGet
  else f.valueGet

/-- `JSON.stringify([...x].sort())` for an array value `x` (the identity
of the spread copy is irrelevant to the serialization). -/
def sortStr : JSValue → Option String
  | .arr i fr l => jsonStringify (.arr i fr (jsSortDefault l))
  | v => jsonStringify v

/-- Getter `get _changed()` (lines 20–24). When both the baseline and
the current value are arrays, their sorted serializations are compared;
otherwise the baseline must differ from the save-value by `!==` and from
the current value by serialization. -/
def changed (f : Field) : Bool :=
  if jsIsArray f._originalValue_ ∧ jsIsArray f.valueGet then
    sortStr f._originalValue_ ≠ sortStr f.saveValue
  else
    jsStrictEq f._originalValue_ f.saveValue = false ∧
      jsonStringify f._originalValue_ ≠ jsonStringify f.valueGet

end Field

/-- The observable result of running the constructor (lines 2–18): a
thrown error (name, message), a process exit, or a constructed field
together with the caller's (possibly mutated in place) `config`
argument, which the field also stores by reference. -/
inductive CtorResult where
  | thrown (name msg : String)
  | exited (code : Nat)
  | ok (f : Field) (callerConfig : JSValue)
deriving Repr, DecidableEq

/-- A single apostrophe (U+0027), used in source message strings. -/
def sq : String := String.singleton (Char.ofNat 39)

/-- `constructor(name, value, config = {})` (lines 2–18).

* a non-string `name` throws an `UninitializedFieldError` whose message
  interpolates the received name;
* `if (config.strict !== true) config.strict = false;` mutates the
  caller's `config` object in place (the default `{}` — taken when the
  argument is `undefined` — is a fresh object, modelled with id 0; the
  write throws a `TypeError` in strict mode when `config` is frozen, a
  primitive or `null`; a write on an array config attaches a non-index
  property, which nothing later observes, and the array is then rejected
  by the `config` setter);
* `this.name = name` routes an empty name through `_error` (which, the
  type being unset, exits the process);
* `this.config = config` rejects non-objects and arrays likewise;
* `this.value = value` runs only when `value !== undefined`;
* `this._originalValue = value` stores the baseline. -/
def construct (name value : JSValue) (config : JSValue := .undef) : CtorResult :=
  if jsTypeof name ≠ "string" then
    .thrown "UninitializedFieldError"
      ("The " ++ sq ++ "name" ++ sq ++
        " of a Field was not set to a String. Received: " ++ jsToString name)
  else
    let config := if config = .undef then .obj 0 false [] else config
    let stricted : Except String JSValue :=
      match config with
      | .obj i fr entries =>
          if jsGet config "strict" ≠ .bool true then
            if fr then .error "TypeError"
            else .ok (.obj i fr (setEntry entries "strict" (.bool false)))
          else .ok config
      | .arr i fr l => .ok (.arr i fr l)
      | .null => .error "TypeError"
      | other => if jsGet other "strict" ≠ .bool true then .error "TypeError"
                 else .ok other
    match stricted with
    | .error e => .thrown e "Cannot create property on the config argument"
    | .ok config =>
      match Field.setName {} name with
      | (_, some (.thrown n m)) => .thrown n m
      | (_, some (.loggedExit _ c)) => .exited c
      | (f₁, _) =>
        match f₁.setConfig config with
        | (_, some (.thrown n m)) => .thrown n m
        | (_, some (.loggedExit _ c)) => .exited c
        | (f₂, _) =>
          let f₃ := if value ≠ .undef then f₂.setValue value else f₂
          .ok { f₃ with _originalValue_ := value } config

namespace Field

/-- `copy()` (lines 121–125): a new field built from
`(this.name, this.value, this.config)` whose baseline slot is then
overwritten with this field's baseline. -/
def copy (f : Field) : CtorResult :=
  match construct f.nameGet f.valueGet f.configGet with
  | .ok c cfg => .ok { c with _originalValue_ := f._originalValue_ } cfg
  | r => r

end Field

namespace Field

/-- The value of the strict-mode assignment expression `obj[key] = v`
as used by the `reduce` inside `_deepFreezeValue`: the expression
evaluates to the assigned value `v`; assigning a property on a frozen
object or array, on a primitive, on `null` or on `undefined` throws a
`TypeError` (class bodies are strict-mode code). The in-place entry
update on a non-frozen target has no bearing on the expression's value,
which is all the `reduce` accumulator keeps. -/
def jsAssignProp (target : JSValue) (_key : String) (v : JSValue) :
    Except String JSValue :=
  match target with
  | .obj _ fr _ => if fr then .error "TypeError" else .ok v
  | .arr _ fr _ => if fr then .error "TypeError" else .ok v
  | _ => .error "TypeError"

mutual

/-- The inner `handleValue` closure of `_deepFreezeValue`
(lines 144–162), with the `cache` object threaded explicitly. The cache
is a JS object, so membership is keyed by `String(value)` — the string
conversion of the value, not its identity. `Record` and `Field` host
instances do not occur among modelled values (lines 153–156 never
trigger), and the final `JSON.parse(JSON.stringify(value))` fallback
(line 161) is unreachable: every non-object value is already frozen
(`Object.isFrozen` is true on primitives), so it is modelled as
returning the value. Fresh arrays allocated by `value.map(...)` and the
`reduce`'s initial `{}` carry id 0 (no modelled flow observes their
identity). -/
def handleValue (cache : List String) (v : JSValue) :
    Except String JSValue × List String :=
  if jsToString v ∈ cache then (.ok v, cache)
  else
    let cache := jsToString v :: cache
    if v = .undef ∨ v = .null ∨ jsIsNaN v then (.ok v, cache)
    else if jsIsFrozen v then (.ok v, cache)
    else
      match v with
      | .arr _ _ elems =>
          match handleElems cache elems with
          | (.ok l, c) => (.ok (.arr 0 true l), c)
          | (.error e, c) => (.error e, c)
      | .obj _ _ entries =>
          match handleEntries cache (.obj 0 false []) entries with
          | (.ok acc, c) => (.ok (jsFreeze acc), c)
          | (.error e, c) => (.error e, c)
      | w => (.ok w, cache)
termination_by sizeOf v

/-- `value.map(value => handleValue(value))`, left to right. -/
def handleElems (cache : List String) :
    List JSValue → Except String (List JSValue) × List String
  | [] => (.ok [], cache)
  | v :: rest =>
      match handleValue cache v with
      | (.ok hv, c) =>
          match handleElems c rest with
          | (.ok l, c') => (.ok (hv :: l), c')
          | (.error e, c') => (.error e, c')
      | (.error e, c) => (.error e, c)
termination_by l => sizeOf l

/-- `Object.entries(value).reduce((obj, [key, value]) => obj[key] =
handleValue(value), {})`: the accumulator after each entry is the value
of the assignment expression, i.e. the handled entry value — not the
object being built. -/
def handleEntries (cache : List String) (acc : JSValue) :
    List (String × JSValue) → Except String JSValue × List String
  | [] => (.ok acc, cache)
  | (k, v) :: rest =>
      match handleValue cache v with
      | (.ok hv, c) =>
          match jsAssignProp acc k hv with
          | .ok rhs => handleEntries c rhs rest
          | .error e => (.error e, c)
      | (.error e, c) => (.error e, c)
termination_by entries => sizeOf entries

end

/-- `_deepFreezeValue(value)` (lines 142–164): runs `handleValue` with a
fresh cache; a `TypeError` raised by a strict-mode assignment inside the
`reduce` propagates to the caller. -/
def deepFreezeValue (_f : Field) (value : JSValue) : Except String JSValue :=
  (handleValue [] value).1

end Field

/-- The values the `value` getter's falsy-normalization preserves: every
value except `undefined`, the empty string and `NaN` (note `0`, `false`
and `null` are preserved — `null` already being the explicit-empty
marker). -/
def readStable (v : JSValue) : Prop :=
  v ≠ .undef ∧ v ≠ .str "" ∧ v ≠ .num .nan

instance (v : JSValue) : Decidable (readStable v) := by
  unfold readStable; infer_instance

/-- Equality-by-structure as the change-detection claims use it: for two
arrays, the same element list; otherwise, the same structural (JSON)
serialization. -/
def structLike (a b : JSValue) : Bool :=
  match a, b with
  | .arr _ _ l₁, .arr _ _ l₂ => decide (l₁ = l₂)
  | a, b => decide (jsonStringify a = jsonStringify b)

theorem structLike_refl (v : JSValue) : structLike v v = true := by
  cases v <;> simp [structLike]

namespace Field

theorem valueGet_of_readStable (f : Field) (h : readStable f._value) :
    f.valueGet = f._value := by
  obtain ⟨h₁, h₂, h₃⟩ := h
  unfold valueGet
  cases hv : f._value with
  | undef => exact absurd hv h₁
  | null => simp [jsTruthy]
  | bool b => cases b <;> simp [jsTruthy]
  | num n =>
      cases n with
      | nan => exact absurd hv h₃
      | int k =>
          by_cases hk : k = 0
          · simp [hk]
          · simp [hk, jsTruthy]
  | str s =>
      have : s ≠ "" := fun hs => h₂ (hs ▸ hv)
      simp [jsTruthy, this]
  | arr i fr l => simp [jsTruthy]
  | obj i fr e => simp [jsTruthy]

/-- Whatever the stored value, the getter yields `null`, `0`, `false`,
or a truthy value. -/
theorem valueGet_shape (f : Field) :
    f.valueGet = .null ∨ f.valueGet = .num (.int 0) ∨
      f.valueGet = .bool false ∨ jsTruthy f.valueGet = true := by
  unfold valueGet
  split
  · rename_i h; rcases h with h | h <;> simp [h]
  · split
    · rename_i h; simp [h]
    · simp

theorem jsIsArray_iff (v : JSValue) :
    jsIsArray v = true ↔ ∃ i fr l, v = .arr i fr l := by
  cases v <;> simp [jsIsArray]

/-- Storing a value of the shape the getter produces reads back
unchanged. -/
theorem valueGet_of_shape (g : Field) (y : JSValue)
    (hs : y = .null ∨ y = .num (.int 0) ∨ y = .bool false ∨ jsTruthy y = true)
    (h : g._value = y) : g.valueGet = y := by
  unfold valueGet
  rw [h]
  rcases hs with hs | hs | hs | hs
  · subst hs; simp [jsTruthy]
  · subst hs; simp
  · subst hs; simp
  · split
    · rfl
    · simp [hs]

/-- The getter is idempotent: re-reading a value that was itself
produced by the getter returns it unchanged. -/
theorem valueGet_idem (f g : Field) (h : g._value = f.valueGet) :
    g.valueGet = f.valueGet :=
  g.valueGet_of_shape f.valueGet f.valueGet_shape h

/-- When the baseline and the stored current value are arrays, the
save-value is just the current value (strict or not). -/
theorem saveValue_of_arrays (f : Field)
    (ho : jsIsArray f._originalValue_ = true)
    (hv : jsIsArray f._value = true) :
    f.saveValue = f._value := by
  obtain ⟨i, fr, l, hov⟩ := (jsIsArray_iff _).mp hv
  obtain ⟨i₁, fr₁, l₁, hoo⟩ := (jsIsArray_iff _).mp ho
  have hval : f.valueGet = f._value := by
    unfold valueGet; rw [hov]; simp [jsTruthy]
  unfold saveValue
  rw [hval, hov, hoo]
  simp [jsTypeof]

/-- Core change-detection lemma: a read-stable stored value that is
equal-by-structure to the baseline is not a change. -/
theorem changed_false_of_structLike (f : Field)
    (h₁ : readStable f._value)
    (h₂ : structLike f._value f._originalValue_ = true) :
    f.changed = false := by
  have hval : f.valueGet = f._value := f.valueGet_of_readStable h₁
  unfold changed
  split
  · rename_i hguard
    obtain ⟨hoarr, hvarr⟩ := hguard
    rw [hval] at hvarr
    have hsv : f.saveValue = f._value := f.saveValue_of_arrays hoarr hvarr
    rw [hsv]
    cases hov : f._value with
    | arr i₂ fr₂ l₂ =>
        cases hoo : f._originalValue_ with
        | arr i₁ fr₁ l₁ =>
            rw [hov, hoo] at h₂
            unfold structLike at h₂
            simp at h₂
            subst h₂
            simp [sortStr, jsonStringify]
        | undef => rw [hoo] at hoarr; simp [jsIsArray] at hoarr
        | null => rw [hoo] at hoarr; simp [jsIsArray] at hoarr
        | bool b => rw [hoo] at hoarr; simp [jsIsArray] at hoarr
        | num n => rw [hoo] at hoarr; simp [jsIsArray] at hoarr
        | str s => rw [hoo] at hoarr; simp [jsIsArray] at hoarr
        | obj i fr e => rw [hoo] at hoarr; simp [jsIsArray] at hoarr
    | undef => rw [hov] at hvarr; simp [jsIsArray] at hvarr
    | null => rw [hov] at hvarr; simp [jsIsArray] at hvarr
    | bool b => rw [hov] at hvarr; simp [jsIsArray] at hvarr
    | num n => rw [hov] at hvarr; simp [jsIsArray] at hvarr
    | str s => rw [hov] at hvarr; simp [jsIsArray] at hvarr
    | obj i fr e => rw [hov] at hvarr; simp [jsIsArray] at hvarr
  · rename_i hguard
    have hstr : jsonStringify f._originalValue_ = jsonStringify f.valueGet := by
      rw [hval]
      cases hov : f._value with
      | arr i₂ fr₂ l₂ =>
          cases hoo : f._originalValue_ with
          | arr i₁ fr₁ l₁ =>
              exfalso
              exact hguard ⟨by simp [hoo, jsIsArray], by simp [hval, hov, jsIsArray]⟩
          | undef => rw [hov, hoo] at h₂; unfold structLike at h₂; simp_all
          | null => rw [hov, hoo] at h₂; unfold structLike at h₂; simp_all
          | bool b => rw [hov, hoo] at h₂; unfold structLike at h₂; simp_all
          | num n => rw [hov, hoo] at h₂; unfold structLike at h₂; simp_all
          | str s => rw [hov, hoo] at h₂; unfold structLike at h₂; simp_all
          | obj i fr e => rw [hov, hoo] at h₂; unfold structLike at h₂; simp_all
      | undef =>
          exact absurd hov h₁.1
      | null =>
          cases hoo : f._originalValue_ <;> rw [hov, hoo] at h₂ <;>
            unfold structLike at h₂ <;> simp_all
      | bool b =>
          cases hoo : f._originalValue_ <;> rw [hov, hoo] at h₂ <;>
            unfold structLike at h₂ <;> simp_all
      | num n =>
          cases hoo : f._originalValue_ <;> rw [hov, hoo] at h₂ <;>
            unfold structLike at h₂ <;> simp_all
      | str s =>
          cases hoo : f._originalValue_ <;> rw [hov, hoo] at h₂ <;>
            unfold structLike at h₂ <;> simp_all
      | obj i fr e =>
          cases hoo : f._originalValue_ <;> rw [hov, hoo] at h₂ <;>
            unfold structLike at h₂ <;> simp_all
    simp [hstr]

end Field

namespace JSValue

theorem insertSorted_perm (x : JSValue) (l : List JSValue) :
    List.Perm (insertSorted x l) (x :: l) := by
  induction l with
  | nil => rfl
  | cons y ys ih =>
      unfold insertSorted
      split
      · exact ((ih.cons y).trans (List.Perm.swap x y ys))
      · rfl

theorem charsLt_iff : ∀ as bs : List Char,
    charsLt as bs = true ↔ List.Lex (fun a b : Char => a < b) as bs
  | [], [] => by
      simp only [charsLt, Bool.false_eq_true, false_iff]
      intro h; cases h
  | [], b :: bs => by
      simp only [charsLt, true_iff]
      exact List.Lex.nil
  | a :: as, [] => by
      simp only [charsLt, Bool.false_eq_true, false_iff]
      intro h; cases h
  | a :: as, b :: bs => by
      unfold charsLt
      by_cases h₁ : a < b
      · rw [if_pos h₁]
        simp only [true_iff]
        exact List.Lex.rel h₁
      · rw [if_neg h₁]
        by_cases h₂ : b < a
        · rw [if_pos h₂]
          simp only [Bool.false_eq_true, false_iff]
          intro h
          cases h with
          | rel hr => exact h₁ hr
          | cons _ => exact lt_irrefl _ h₂
        · rw [if_neg h₂]
          have hab : a = b := le_antisymm (le_of_not_lt h₂) (le_of_not_lt h₁)
          subst hab
          rw [charsLt_iff as bs]
          constructor
          · exact List.Lex.cons
          · intro h
            cases h with
            | rel hr => exact absurd hr h₁
            | cons ht => exact ht

theorem jsStrLt_iff (a b : String) : jsStrLt a b = true ↔ a < b := by
  rw [String.lt_iff_toList_lt]
  exact charsLt_iff a.data b.data

theorem sortKeyLe_pairwise_insertSorted (x : JSValue) (l : List JSValue)
    (h : l.Pairwise (fun a b => jsSortKey a ≤ jsSortKey b)) :
    (insertSorted x l).Pairwise (fun a b => jsSortKey a ≤ jsSortKey b) := by
  induction l with
  | nil => simp [insertSorted]
  | cons y ys ih =>
      rw [List.pairwise_cons] at h
      obtain ⟨hy, hys⟩ := h
      unfold insertSorted
      split
      · rename_i hlt
        replace hlt := (jsStrLt_iff _ _).mp hlt
        rw [List.pairwise_cons]
        refine ⟨?_, ih hys⟩
        intro z hz
        have hz' : z ∈ x :: ys := (insertSorted_perm x ys).mem_iff.mp hz
        rcases List.mem_cons.mp hz' with hz' | hz'
        · exact hz' ▸ le_of_lt hlt
        · exact hy z hz'
      · rename_i hnlt
        have hnlt' : ¬ jsSortKey y < jsSortKey x :=
          fun hl => hnlt ((jsStrLt_iff _ _).mpr hl)
        rw [List.pairwise_cons]
        refine ⟨?_, List.pairwise_cons.mpr ⟨hy, hys⟩⟩
        intro z hz
        rcases List.mem_cons.mp hz with hz | hz
        · exact hz ▸ le_of_not_lt hnlt'
        · exact le_trans (le_of_not_lt hnlt') (hy z hz)

theorem jsSortDefault_perm (l : List JSValue) :
    List.Perm (jsSortDefault l) l := by
  induction l with
  | nil => rfl
  | cons a rest ih =>
      exact (insertSorted_perm a (jsSortDefault rest)).trans (ih.cons a)

theorem jsSortDefault_pairwise (l : List JSValue) :
    (jsSortDefault l).Pairwise (fun a b => jsSortKey a ≤ jsSortKey b) := by
  induction l with
  | nil => simp [jsSortDefault]
  | cons a rest ih => exact sortKeyLe_pairwise_insertSorted a _ ih

theorem eq_of_perm_of_keyStrictSorted :
    ∀ l₁ l₂ : List JSValue, List.Perm l₁ l₂ →
      l₁.Pairwise (fun a b => jsSortKey a < jsSortKey b) →
      l₂.Pairwise (fun a b => jsSortKey a < jsSortKey b) →
      l₁ = l₂
  | [], l₂, h, _, _ => (h.symm.eq_nil).symm
  | a :: t₁, [], h, _, _ => absurd h.eq_nil (by simp)
  | a :: t₁, b :: t₂, h, h₁, h₂ => by
      rcases eq_or_ne a b with hab | hab
      · subst hab
        have ht := h.cons_inv
        rw [List.pairwise_cons] at h₁ h₂
        rw [eq_of_perm_of_keyStrictSorted t₁ t₂ ht h₁.2 h₂.2]
      · exfalso
        have ha : a ∈ b :: t₂ := h.mem_iff.mp (List.mem_cons_self a t₁)
        have ha' : a ∈ t₂ := by
          rcases List.mem_cons.mp ha with hx | hx
          · exact absurd hx hab
          · exact hx
        have hb : b ∈ a :: t₁ := h.symm.mem_iff.mp (List.mem_cons_self b t₂)
        have hb' : b ∈ t₁ := by
          rcases List.mem_cons.mp hb with hx | hx
          · exact absurd hx.symm hab
          · exact hx
        rw [List.pairwise_cons] at h₁ h₂
        exact absurd (h₁.1 b hb') (not_lt.mpr (le_of_lt (h₂.1 a ha')))

theorem keyStrict_of_pairwise_nodup (l : List JSValue)
    (hs : l.Pairwise (fun a b => jsSortKey a ≤ jsSortKey b))
    (hn : (l.map jsSortKey).Nodup) :
    l.Pairwise (fun a b => jsSortKey a < jsSortKey b) := by
  have hne : l.Pairwise (fun a b => jsSortKey a ≠ jsSortKey b) :=
    List.pairwise_map.mp hn
  exact (hs.and hne).imp (fun h => lt_of_le_of_ne h.1 h.2)

/-- Two permuted lists with pairwise-distinct sort keys sort to the same
list. -/
theorem jsSortDefault_eq_of_perm (l₁ l₂ : List JSValue)
    (h : List.Perm l₁ l₂) (hn : (l₁.map jsSortKey).Nodup) :
    jsSortDefault l₁ = jsSortDefault l₂ := by
  have hn₂ : (l₂.map jsSortKey).Nodup := ((h.map jsSortKey).nodup_iff).mp hn
  have hperm : List.Perm (jsSortDefault l₁) (jsSortDefault l₂) :=
    ((jsSortDefault_perm l₁).trans h).trans (jsSortDefault_perm l₂).symm
  have hk₁ : ((jsSortDefault l₁).map jsSortKey).Nodup :=
    (((jsSortDefault_perm l₁).map jsSortKey).nodup_iff).mpr hn
  have hk₂ : ((jsSortDefault l₂).map jsSortKey).Nodup :=
    (((jsSortDefault_perm l₂).map jsSortKey).nodup_iff).mpr hn₂
  exact eq_of_perm_of_keyStrictSorted _ _ hperm
    (keyStrict_of_pairwise_nodup _ (jsSortDefault_pairwise l₁) hk₁)
    (keyStrict_of_pairwise_nodup _ (jsSortDefault_pairwise l₂) hk₂)

end JSValue

/-- Reduction of a successful constructor run on an explicit unfrozen
object config that does not set `strict: true`: the caller's config
gains `strict: false` in place and is stored by reference. -/
theorem construct_ok_obj (s : String) (hs : 1 ≤ s.length) (v : JSValue)
    (i : Nat) (entries : List (String × JSValue))
    (hstrict : jsGet (.obj i false entries) "strict" ≠ .bool true) :
    construct (.str s) v (.obj i false entries) =
      .ok { _name := .str s,
            _config := .obj i false (setEntry entries "strict" (.bool false)),
            _type := .undef, _value := v, _originalValue_ := v }
        (.obj i false (setEntry entries "strict" (.bool false))) := by
  have hlen : ¬ s.length < 1 := Nat.not_lt.mpr hs
  unfold construct
  simp only [jsTypeof, ne_eq, not_true_eq_false, if_false, reduceCtorEq,
    if_neg, hstrict, not_false_eq_true, if_true, Field.setName, hlen,
    Field.setConfig, Field.setValue, jsIsArray]
  by_cases hv : v = .undef
  · subst hv; simp [Field.setName, hlen, Field.setConfig, jsTypeof, jsIsArray]
  · simp [Field.setName, hlen, Field.setConfig, jsTypeof, jsIsArray, hv]

/-- Reduction of a successful constructor run with the defaulted config
(`config = {}`). -/
theorem construct_ok_default (s : String) (hs : 1 ≤ s.length) (v : JSValue) :
    construct (.str s) v .undef =
      .ok { _name := .str s,
            _config := .obj 0 false [("strict", .bool false)],
            _type := .undef, _value := v, _originalValue_ := v }
        (.obj 0 false [("strict", .bool false)]) := by
  have hlen : ¬ s.length < 1 := Nat.not_lt.mpr hs
  unfold construct
  by_cases hv : v = .undef
  · subst hv
    simp [Field.setName, hlen, Field.setConfig, jsTypeof, jsIsArray, jsGet,
      setEntry]
  · simp [Field.setName, hlen, Field.setConfig, Field.setValue, jsTypeof,
      jsIsArray, jsGet, setEntry, hv]

theorem jsGet_cons (i : Nat) (fr : Bool) (k k' : String) (v' : JSValue)
    (rest : List (String × JSValue)) :
    jsGet (.obj i fr ((k', v') :: rest)) k =
      if k' = k then v' else jsGet (.obj i fr rest) k := by
  unfold jsGet
  by_cases h : k' = k
  · simp [List.find?_cons_of_pos, h]
  · simp [List.find?_cons_of_neg, h]

/-- Writing back the value a key already holds leaves the entry list
unchanged. -/
theorem setEntry_id (k : String) (v : JSValue) (hv : v ≠ .undef) :
    ∀ entries, jsGet (.obj 0 false entries) k = v → setEntry entries k v = entries := by
  intro entries
  induction entries with
  | nil => intro h; simp [jsGet, List.find?] at h; exact absurd h.symm hv
  | cons e rest ih =>
      obtain ⟨k', v'⟩ := e
      intro h
      rw [jsGet_cons] at h
      unfold setEntry
      by_cases hk : k' = k
      · rw [if_pos hk] at h
        simp [hk, h]
      · rw [if_neg hk] at h
        simp [hk, ih h]

/-- Reading a key just written yields the written value. -/
theorem jsGet_setEntry (i : Nat) (fr : Bool) (k : String) (v : JSValue) :
    ∀ entries, jsGet (.obj i fr (setEntry entries k v)) k = v := by
  intro entries
  induction entries with
  | nil => simp [setEntry, jsGet, List.find?]
  | cons e rest ih =>
      obtain ⟨k', v'⟩ := e
      unfold setEntry
      by_cases hk : k' = k
      · simp [hk, jsGet_cons]
      · rw [if_neg hk, jsGet_cons, if_neg hk]
        exact ih

/-- Reduction of a successful constructor run on a config that already
sets `strict: true`: the config is not written to (so a frozen config is
fine) and is stored by reference, unchanged. -/
theorem construct_ok_obj_strictTrue (s : String) (hs : 1 ≤ s.length)
    (v : JSValue) (i : Nat) (fr : Bool) (entries : List (String × JSValue))
    (hstrict : jsGet (.obj i fr entries) "strict" = .bool true) :
    construct (.str s) v (.obj i fr entries) =
      .ok { _name := .str s, _config := .obj i fr entries,
            _type := .undef, _value := v, _originalValue_ := v }
        (.obj i fr entries) := by
  have hlen : ¬ s.length < 1 := Nat.not_lt.mpr hs
  unfold construct
  by_cases hv : v = .undef
  · subst hv
    simp [Field.setName, hlen, Field.setConfig, jsTypeof, jsIsArray, hstrict]
  · simp [Field.setName, hlen, Field.setConfig, Field.setValue, jsTypeof,
      jsIsArray, hstrict, hv]

/-! Claim theorems. -/

/-- Concrete field used by the C1 counterexample: `type` is unset and
error suppression (`__ignoreFieldErrors__: true`) is NOT in effect. -/
def fC1 : Field :=
  { _name := .str "f", _config := .obj 1 false [("strict", .bool false)],
    _type := .undef, _value := .undef, _originalValue_ := .undef }

/-- Claim C1, counterexample to the statement as written: the claim
says process termination occurs only when the type is unset AND
suppression is in effect, and that otherwise (type unset, no
suppression) the error is merely logged; but `_error` on a field with
unset `type` and no suppression still exits the process with status 2. -/
theorem C1_counterexample :
    fC1.typeGet = .undef ∧
    jsGet fC1.configGet "__ignoreFieldErrors__" ≠ .bool true ∧
    (fC1.errorRun "m" .undef false).isExit = true := by
  refine ⟨rfl, by decide, rfl⟩

/-- Claim C1 as amended: for every call to `_error`, process
termination (with exit status 2) occurs exactly when the Field's `type`
is still unset — regardless of suppression; when `type` is set the
error is thrown iff `forceThrow` is true or suppression is not
requested, and merely logged otherwise. -/
theorem C1_error_outcome_amended (f : Field) (m : String) (r : JSValue)
    (ft : Bool) :
    (f.errorRun m r ft = .loggedExit (f.errorMessage m r) 2 ↔
      f.typeGet = .undef) ∧
    ((f.errorRun m r ft).isThrown = true ↔
      f.typeGet ≠ .undef ∧
        (ft = true ∨ jsGet f.configGet "__ignoreFieldErrors__" ≠ .bool true)) ∧
    ((f.errorRun m r ft).isLoggedOnly = true ↔
      f.typeGet ≠ .undef ∧ ft = false ∧
        jsGet f.configGet "__ignoreFieldErrors__" = .bool true) := by
  unfold Field.errorRun
  by_cases h₁ : f.typeGet = .undef
  · rw [if_neg (by simp [h₁]), if_pos h₁]
    simp [Field.ErrorOutcome.isThrown, Field.ErrorOutcome.isLoggedOnly, h₁]
  · by_cases h₂ : ft = true ∨ jsGet f.configGet "__ignoreFieldErrors__" ≠ .bool true
    · rw [if_pos ⟨h₁, h₂⟩]
      have hr : ¬ (f.typeGet ≠ .undef ∧ ft = false ∧
          jsGet f.configGet "__ignoreFieldErrors__" = .bool true) := by
        rintro ⟨-, hft, hsup⟩
        rcases h₂ with hx | hx
        · rw [hft] at hx; exact Bool.false_ne_true hx
        · exact hx hsup
      refine ⟨by simp [h₁], by simp [Field.ErrorOutcome.isThrown, h₁, h₂], ?_⟩
      simp [Field.ErrorOutcome.isLoggedOnly, hr]
    · push_neg at h₂
      obtain ⟨hft, hsup⟩ := h₂
      have hcond : ¬ (f.typeGet ≠ .undef ∧
          (ft = true ∨ jsGet f.configGet "__ignoreFieldErrors__" ≠ .bool true)) := by
        rintro ⟨-, hx | hx⟩
        · exact hft hx
        · exact hx hsup
      rw [if_neg hcond, if_neg h₁]
      have hft' : ft = false := by
        cases ft
        · rfl
        · exact absurd rfl hft
      refine ⟨by simp [h₁], by simp [Field.ErrorOutcome.isThrown, hcond], ?_⟩
      simp [Field.ErrorOutcome.isLoggedOnly, h₁, hft', hsup]

/-- Concrete strict-mode field used by the C2 counterexample. -/
def fC2 : Field :=
  { _name := .str "n", _config := .obj 1 false [("strict", .bool true)],
    _type := .str "number", _value := .str "7",
    _originalValue_ := .num (.int 5) }

/-- Claim C2, counterexample to the statement as written: it quantifies
over every Field with a numeric (etc.) baseline and differently-typed
current value, but on a `strict: true` field the save-value is the
current value verbatim, so its runtime type does not converge to the
baseline's. -/
theorem C2_counterexample :
    jsKind fC2._originalValue_ = "number" ∧
    jsTypeof fC2.valueGet ≠ jsTypeof fC2._originalValue_ ∧
    fC2.valueGet ≠ .undef ∧ fC2.valueGet ≠ .null ∧
    fC2.valueGet ≠ .num .nan ∧
    fC2.saveValue = .str "7" ∧
    jsKind fC2.saveValue ≠ jsKind fC2._originalValue_ := by
  decide

theorem jsIsNaN_eq_false (v : JSValue) (h : v ≠ .num .nan) :
    jsIsNaN v = false := by
  cases v with
  | num n => cases n with
    | nan => exact absurd rfl h
    | int k => rfl
  | undef => rfl
  | null => rfl
  | bool b => rfl
  | str s => rfl
  | arr i fr l => rfl
  | obj i fr e => rfl

theorem jsKind_concatWrap (n : Nat) (v : JSValue) :
    jsKind (Field.jsConcatWrap n v) = "array" := by
  cases v <;> rfl

/-- Claim C2 as amended: for every Field whose config does not request
strict mode, whose baseline is textual/boolean/numeric/sequence, and
whose read-normalized current value has a different `typeof` than the
baseline and is not unset, not the explicit-empty marker and not `NaN`,
the save-value's runtime type equals the baseline's runtime type (a
string baseline stringifies, a boolean baseline applies truthiness, a
numeric baseline applies numeric conversion, a sequence baseline wraps
the value into a sequence). -/
theorem C2_coercion_convergence_amended (f : Field)
    (hstrict : jsGet f.configGet "strict" ≠ .bool true)
    (hk : jsKind f._originalValue_ = "string" ∨
      jsKind f._originalValue_ = "boolean" ∨
      jsKind f._originalValue_ = "number" ∨
      jsKind f._originalValue_ = "array")
    (ht : jsTypeof f.valueGet ≠ jsTypeof f._originalValue_)
    (hu : f.valueGet ≠ .undef) (hn : f.valueGet ≠ .null)
    (hnan : f.valueGet ≠ .num .nan) :
    jsKind f.saveValue = jsKind f._originalValue_ := by
  have hnan' := jsIsNaN_eq_false _ hnan
  unfold Field.saveValue
  rw [if_neg hstrict, if_neg (by simp [hu, hn])]
  cases ho : f._originalValue_ with
  | undef => rw [ho] at hk; simp [jsKind] at hk
  | null => rw [ho] at hk; simp [jsKind] at hk
  | obj i fr e => rw [ho] at hk; simp [jsKind] at hk
  | str s =>
      rw [ho] at ht
      rw [if_neg (by simp [ht]), if_neg (by simp [hu, hn, hnan']),
        if_pos (by rfl)]
      simp [jsKind]
  | bool b =>
      rw [ho] at ht
      rw [if_neg (by simp [ht]), if_neg (by simp [hu, hn, hnan']),
        if_neg (by simp [jsTypeof]), if_pos (by rfl)]
      simp [jsKind]
  | num n =>
      rw [ho] at ht
      rw [if_neg (by simp [ht]), if_neg (by simp [hu, hn, hnan']),
        if_neg (by simp [jsTypeof]), if_neg (by simp [jsTypeof]),
        if_pos (by rfl)]
      simp [jsKind]
  | arr i fr l =>
      rw [ho] at ht
      rw [if_neg (by simp [ht]), if_neg (by simp [hu, hn, hnan']),
        if_neg (by simp [jsTypeof]), if_neg (by simp [jsTypeof]),
        if_neg (by simp [jsTypeof]), if_pos (by simp [jsIsArray])]
      rw [jsKind_concatWrap]
      rfl

/-- Concrete non-strict field (string baseline `"Alice"`, numeric
current value `42`) witnessing C2's amended theorem. -/
def fC2w : Field :=
  { _name := .str "Name", _config := .obj 1 false [("strict", .bool false)],
    _type := .undef, _value := .num (.int 42),
    _originalValue_ := .str "Alice" }

theorem C2_witness :
    jsGet fC2w.configGet "strict" ≠ .bool true ∧
    jsKind fC2w.saveValue = jsKind fC2w._originalValue_ :=
  ⟨by decide,
   C2_coercion_convergence_amended fC2w (by decide) (by decide) (by decide)
     (by decide) (by decide) (by decide)⟩

/-- The field produced by `new Field('f')` (no initial value). -/
def fC3 : Field :=
  { _name := .str "f", _config := .obj 0 false [("strict", .bool false)],
    _type := .undef, _value := .undef, _originalValue_ := .undef }

/-- Claim C3, counterexample to the statement as written: immediately
after construction with no initial value (an `undefined` baseline), the
derived `changed` flag is `true`, not `false` (the getter normalizes the
unset current value to `null`, whose serialization differs from the
baseline's). -/
theorem C3_counterexample :
    construct (.str "f") .undef .undef = .ok fC3 fC3._config ∧
    fC3.changed = true :=
  ⟨rfl, by decide⟩

/-- Claim C3 as amended: `changed` is false immediately after
construction provided the initial value survives the read
normalization (it is not `undefined`, not the empty string and not
`NaN`); and after reassigning `value` to any read-stable value
equal-by-structure to the baseline (same serialization; for
sequence-to-sequence comparison, the same element list), `changed` is
also false. -/
theorem C3_changed_baseline_amended :
    (∀ (s : String) (v : JSValue), 1 ≤ s.length → readStable v →
      match construct (.str s) v .undef with
      | .ok f _ => f.changed = false
      | _ => False) ∧
    (∀ (f : Field) (v : JSValue), readStable v →
      structLike v f._originalValue_ = true →
      (f.setValue v).changed = false) := by
  constructor
  · intro s v hs hv
    rw [construct_ok_default s hs v]
    exact Field.changed_false_of_structLike _ hv (structLike_refl v)
  · intro f v hv hsl
    exact Field.changed_false_of_structLike _ hv hsl

/-- Concrete field (numeric baseline `5`) used by the C3 witness. -/
def fC3w : Field :=
  { _name := .str "w", _config := .obj 0 false [("strict", .bool false)],
    _type := .undef, _value := .num (.int 7),
    _originalValue_ := .num (.int 5) }

theorem C3_witness :
    (match construct (.str "a") (.num (.int 5)) .undef with
     | .ok f _ => f.changed = false
     | _ => False) ∧
    (fC3w.setValue (.num (.int 5))).changed = false :=
  ⟨C3_changed_baseline_amended.1 "a" (.num (.int 5)) (by decide) (by decide),
   C3_changed_baseline_amended.2 fC3w (.num (.int 5)) (by decide) (by decide)⟩

/-- A blank field (the deep-freeze helper reads no instance state for
non-`Record`/`Field` inputs). -/
def fBlank : Field :=
  { _name := .undef, _config := .undef, _type := .undef, _value := .undef,
    _originalValue_ := .undef }

/-- Claim C4 is right about the intent but the code is wrong
(`code_bug`): the `reduce` inside `_deepFreezeValue` returns the value
of the assignment expression `obj[key] = handleValue(value)` — the
handled entry value — instead of the object being built. Deep-freezing
the plain object `{a: 1}` therefore returns `1`, which is not
structurally equal to the input (contradicting the function's own
doc comment "creates a copy of the value and freezes it"); deep-freezing
a two-entry object `{a: 1, b: 2}` throws a `TypeError` (the second
iteration assigns a property on the primitive accumulator `1` in strict
mode). -/
theorem C4_deepFreeze_object_bug :
    fBlank.deepFreezeValue (.obj 5 false [("a", .num (.int 1))]) =
      .ok (.num (.int 1)) ∧
    jsonStringify (.num (.int 1)) ≠
      jsonStringify (.obj 5 false [("a", .num (.int 1))]) ∧
    fBlank.deepFreezeValue
        (.obj 5 false [("a", .num (.int 1)), ("b", .num (.int 2))]) =
      .error "TypeError" := by
  refine ⟨?_, by decide, ?_⟩ <;>
    · simp [Field.deepFreezeValue, Field.handleValue.eq_def,
        Field.handleEntries.eq_def, Field.jsAssignProp, jsToString,
        jsNumToString, jsIsNaN, jsIsFrozen, jsFreeze]
      decide

/-- Concrete field with an unset stored value, for the C5
counterexample. -/
def fC5 : Field :=
  { _name := .str "n", _config := .obj 1 false [("strict", .bool false)],
    _type := .undef, _value := .undef, _originalValue_ := .undef }

/-- Claim C5, counterexample to the statement as written: it says an
unset stored value is preserved exactly by the `value` getter, but the
getter normalizes `undefined` to the explicit-empty marker `null`. -/
theorem C5_counterexample :
    fC5._value = .undef ∧ fC5.valueGet = .null ∧
    fC5.valueGet ≠ fC5._value := by
  decide

theorem jsTruthy_iff_not_falsy (v : JSValue) :
    jsTruthy v = true ↔ ¬ jsFalsy v := by
  cases v with
  | undef => simp [jsTruthy, jsFalsy]
  | null => simp [jsTruthy, jsFalsy]
  | bool b => cases b <;> simp [jsTruthy, jsFalsy]
  | num n => cases n <;> simp [jsTruthy, jsFalsy]
  | str s => simp [jsTruthy, jsFalsy]
  | arr i fr l => simp [jsTruthy, jsFalsy]
  | obj i fr e => simp [jsTruthy, jsFalsy]

/-- Claim C5 as amended: reading `value` returns the stored value
unchanged except that the literal values `0` and `false` are preserved
exactly while every other falsy stored value — including an unset one —
is normalized to the explicit-empty marker `null`. -/
theorem C5_value_get_amended (f : Field) :
    f.valueGet =
      if f._value = .num (.int 0) ∨ f._value = .bool false then f._value
      else if jsFalsy f._value then .null
      else f._value := by
  unfold Field.valueGet
  split
  · rfl
  · by_cases hf : jsFalsy f._value
    · have ht : ¬ jsTruthy f._value = true :=
        fun h => ((jsTruthy_iff_not_falsy _).mp h) hf
      rw [if_neg ht, if_pos hf]
    · rw [if_pos ((jsTruthy_iff_not_falsy _).mpr hf), if_neg hf]

/-- Concrete source field for the C6 counterexample. -/
def fC6 : Field :=
  { _name := .str "n", _config := .obj 7 false [("strict", .bool false)],
    _type := .undef, _value := .num (.int 5),
    _originalValue_ := .num (.int 5) }

/-- Claim C6, counterexample to the statement as written: the claim
says the copy is a snapshot clone, not a shared reference, so mutating
the copy's state never affects the source — but the copy's `config` is
the very same object as the source's (the constructor stores the
passed config by reference), so mutations of the copy's config contents
are visible to the source. -/
theorem C6_counterexample :
    (match fC6.copy with
     | .ok c _ => jsStrictEq c._config fC6._config
     | _ => false) = true := by
  decide

/-- Claim C6 as amended: `copy()` produces a new Field with the same
name, the same observed value, the same `originalValue` baseline, and
the same config — the name/value/baseline slots being independent
copies, while the config mapping is stored by reference and shared with
the source Field. -/
theorem C6_copy_amended (f : Field) (s : String) (i : Nat)
    (entries : List (String × JSValue))
    (hname : f._name = .str s) (hs : 1 ≤ s.length)
    (hcfg : f._config = .obj i false entries)
    (hstrict : jsGet f._config "strict" = .bool false ∨
      jsGet f._config "strict" = .bool true) :
    match f.copy with
    | .ok c _ =>
        c._name = f._name ∧ c._config = f._config ∧
        jsStrictEq c._config f._config = true ∧
        c.valueGet = f.valueGet ∧
        c._originalValue_ = f._originalValue_
    | _ => False := by
  have hconfigGet : f.configGet = f._config := by
    unfold Field.configGet
    rw [if_pos (by rw [hcfg]; simp [jsTruthy])]
  unfold Field.copy
  rw [Field.nameGet, hname, hconfigGet, hcfg]
  rcases hstrict with hstrict | hstrict
  · rw [hcfg] at hstrict
    rw [construct_ok_obj s hs f.valueGet i entries (by rw [hstrict]; simp)]
    have hentries : setEntry entries "strict" (.bool false) = entries :=
      setEntry_id "strict" (.bool false) (by simp) entries (by exact hstrict)
    refine ⟨rfl, ?_, ?_, ?_, rfl⟩
    · dsimp only
      rw [hentries]
    · dsimp only
      simp [jsStrictEq]
    · exact Field.valueGet_idem f _ rfl
  · rw [hcfg] at hstrict
    rw [construct_ok_obj_strictTrue s hs f.valueGet i false entries hstrict]
    refine ⟨rfl, rfl, ?_, ?_, rfl⟩
    · dsimp only
      simp [jsStrictEq]
    · exact Field.valueGet_idem f _ rfl

/-- Concrete source field for the C6 witness. -/
def fC6w : Field :=
  { _name := .str "w", _config := .obj 3 false [("strict", .bool false)],
    _type := .undef, _value := .str "x", _originalValue_ := .str "y" }

theorem C6_witness :
    match fC6w.copy with
    | .ok c _ =>
        c._name = fC6w._name ∧ c._config = fC6w._config ∧
        jsStrictEq c._config fC6w._config = true ∧
        c.valueGet = fC6w.valueGet ∧
        c._originalValue_ = fC6w._originalValue_
    | _ => False :=
  C6_copy_amended fC6w "w" 3 [("strict", .bool false)] rfl (by decide) rfl
    (Or.inl (by decide))

/-- Claim C7 (confirmed): for every Field whose `config` is already
set, a second `config` assignment attempt leaves the field state
unchanged and routes through the `_error` channel; and independently,
for every Field whose `type` is already set, a second `type` assignment
attempt does likewise — neither is silently applied. Each half needs
only its own attribute to be set (in particular the `config` half also
holds on an ordinary constructed field whose `type` is still unset,
where the error channel exits rather than throws). -/
theorem C7_write_once (f : Field) (c t : JSValue) :
    (f._config ≠ .undef →
      f.setConfig c =
        (f, some (f.errorRun "config can not be changed!" .undef false))) ∧
    (f._type ≠ .undef →
      f.setType t =
        (f, some (f.errorRun "type can not be changed!" t false))) := by
  constructor
  · intro hc
    unfold Field.setConfig
    rw [if_pos hc]
  · intro ht
    unfold Field.setType
    rw [if_pos (show f.typeGet ≠ .undef from ht)]

/-- Concrete field in the ordinary post-construction state: `config`
set, `type` still unset — exercising the C7 config half. -/
def fC7c : Field :=
  { _name := .str "n", _config := .obj 1 false [("strict", .bool false)],
    _type := .undef, _value := .undef, _originalValue_ := .undef }

/-- Concrete field with `type` set, exercising the C7 type half. -/
def fC7t : Field :=
  { _name := .str "n", _config := .obj 1 false [("strict", .bool false)],
    _type := .str "number", _value := .undef, _originalValue_ := .undef }

theorem C7_witness :
    fC7c.setConfig (.obj 9 false []) =
      (fC7c, some (fC7c.errorRun "config can not be changed!" .undef false)) ∧
    fC7t.setType (.str "text") =
      (fC7t, some (fC7t.errorRun "type can not be changed!" (.str "text") false)) :=
  ⟨(C7_write_once fC7c (.obj 9 false []) (.str "text")).1 (by decide),
   (C7_write_once fC7t (.obj 9 false []) (.str "text")).2 (by decide)⟩

/-- Claim C8 (confirmed): construction with any non-empty string name
(and the defaulted config) succeeds, and the `name` accessor returns
that string unchanged; construction with any non-string name throws an
`UninitializedFieldError` whose message carries the received name. -/
theorem C8_construction_name (s : String) (v value : JSValue)
    (hs : 1 ≤ s.length) (hv : jsTypeof v ≠ "string") :
    (match construct (.str s) value .undef with
     | .ok f _ => f.nameGet = .str s
     | _ => False) ∧
    construct v value .undef =
      .thrown "UninitializedFieldError"
        ("The " ++ sq ++ "name" ++ sq ++
          " of a Field was not set to a String. Received: " ++ jsToString v) := by
  constructor
  · rw [construct_ok_default s hs value]
    rfl
  · unfold construct
    rw [if_pos hv]

theorem C8_witness :
    (match construct (.str "Name") (.num (.int 1)) .undef with
     | .ok f _ => f.nameGet = .str "Name"
     | _ => False) ∧
    construct (.num (.int 123)) (.num (.int 1)) .undef =
      .thrown "UninitializedFieldError"
        ("The " ++ sq ++ "name" ++ sq ++
          " of a Field was not set to a String. Received: " ++
            jsToString (.num (.int 123))) :=
  C8_construction_name "Name" (.num (.int 123)) (.num (.int 1)) (by decide)
    (by decide)

/-- Concrete field whose baseline `[1, "1"]` and current value
`["1", 1]` hold the same elements in different orders. -/
def fC9 : Field :=
  { _name := .str "t", _config := .obj 1 false [("strict", .bool false)],
    _type := .undef,
    _value := .arr 3 false [.str "1", .num (.int 1)],
    _originalValue_ := .arr 2 false [.num (.int 1), .str "1"] }

/-- Claim C9, counterexample to the statement as written: the sequences
`[1, "1"]` and `["1", 1]` contain the same elements in different orders,
yet the field reports `changed = true` — the default sort compares the
elements' string conversions, both `"1"` here, so the stable sort keeps
each array's original order and their serializations (`[1,"1"]` vs
`["1",1]`) differ. -/
theorem C9_counterexample :
    List.Perm [JSValue.num (.int 1), JSValue.str "1"]
      [JSValue.str "1", JSValue.num (.int 1)] ∧
    fC9._originalValue_ = .arr 2 false [.num (.int 1), .str "1"] ∧
    fC9._value = .arr 3 false [.str "1", .num (.int 1)] ∧
    fC9.changed = true :=
  ⟨List.Perm.swap (JSValue.str "1") (JSValue.num (.int 1)) [], rfl, rfl, by decide⟩

/-- Claim C9 as amended: two sequences holding the same elements in
different orders do not register as `changed`, provided the elements'
string conversions (the keys the default sort comparator uses) are
pairwise distinct — ties between distinct equal-keyed elements are
resolved by each array's own element order and can still serialize
differently. -/
theorem C9_sequence_order_amended (f : Field) (i₁ i₂ : Nat)
    (fr₁ fr₂ : Bool) (l₁ l₂ : List JSValue)
    (ho : f._originalValue_ = .arr i₁ fr₁ l₁)
    (hv : f._value = .arr i₂ fr₂ l₂)
    (hperm : List.Perm l₁ l₂)
    (hn : (l₁.map jsSortKey).Nodup) :
    f.changed = false := by
  have hval : f.valueGet = f._value := by
    apply f.valueGet_of_readStable
    rw [hv]
    exact ⟨by simp, by simp, by simp⟩
  have hsv : f.saveValue = f._value :=
    f.saveValue_of_arrays (by rw [ho]; rfl) (by rw [hv]; rfl)
  unfold Field.changed
  rw [if_pos ⟨by rw [ho]; rfl, by rw [hval, hv]; rfl⟩]
  rw [hsv, ho, hv]
  have hsorted : jsSortDefault l₁ = jsSortDefault l₂ :=
    jsSortDefault_eq_of_perm l₁ l₂ hperm hn
  simp [Field.sortStr, jsonStringify, hsorted]

/-- Concrete field with baseline `["a", "b"]` and current value
`["b", "a"]` (distinct sort keys), for the C9 witness. -/
def fC9w : Field :=
  { _name := .str "t", _config := .obj 1 false [("strict", .bool false)],
    _type := .undef,
    _value := .arr 3 false [.str "b", .str "a"],
    _originalValue_ := .arr 2 false [.str "a", .str "b"] }

theorem C9_witness : fC9w.changed = false :=
  C9_sequence_order_amended fC9w 2 3 false false
    [.str "a", .str "b"] [.str "b", .str "a"] rfl rfl
    (List.Perm.swap (JSValue.str "b") (JSValue.str "a") []) (by decide)

/-- Claim C10 (confirmed): for every caller-supplied object config
without `strict: true`, construction writes `strict: false` onto the
caller's own mapping and stores that very mapping (reference-identical,
per `jsStrictEq`) as the field's config, so the `config` accessor reads
through the shared object. -/
theorem C10_config_shared_mutation (s : String) (v : JSValue) (i : Nat)
    (entries : List (String × JSValue)) (hs : 1 ≤ s.length)
    (hstrict : jsGet (.obj i false entries) "strict" ≠ .bool true) :
    match construct (.str s) v (.obj i false entries) with
    | .ok f cfg =>
        cfg = .obj i false (setEntry entries "strict" (.bool false)) ∧
        jsGet cfg "strict" = .bool false ∧
        jsStrictEq cfg (.obj i false entries) = true ∧
        f._config = cfg ∧ f.configGet = cfg
    | _ => False := by
  rw [construct_ok_obj s hs v i entries hstrict]
  refine ⟨rfl, jsGet_setEntry i false "strict" (.bool false) entries, ?_,
    rfl, ?_⟩
  · simp [jsStrictEq]
  · unfold Field.configGet
    rw [if_pos (by simp [jsTruthy])]

theorem C10_witness :
    match construct (.str "n") (.num (.int 5))
        (.obj 7 false [("primary", .bool true)]) with
    | .ok f cfg =>
        cfg = .obj 7 false
          (setEntry [("primary", .bool true)] "strict" (.bool false)) ∧
        jsGet cfg "strict" = .bool false ∧
        jsStrictEq cfg (.obj 7 false [("primary", .bool true)]) = true ∧
        f._config = cfg ∧ f.configGet = cfg
    | _ => False :=
  C10_config_shared_mutation "n" (.num (.int 5)) 7 [("primary", .bool true)]
    (by decide) (by decide)

end Airtable
